import Mathlib

/-!
Verification of the ArUco detection service core
(detector.py, georef.py, main.py of the aruco-service app).

The Python source is shallowly embedded: pure numeric code is modelled
over the real numbers, raster pixel buffers over lists of naturals,
and the ephemeral-file behaviour of the HTTP handler as explicit state
passing over a list of staged file paths.  Fallible Python code
(raise / try / except) is modelled with Except.
-/

namespace Aruco

/-! Section: Dictionary resolution (detector.py, get_aruco_dictionary) -/

/-- Embedding of the ARUCO_DICTIONARIES table of detector.py.
The values are the OpenCV predefined-dictionary enumeration constants
(cv2.aruco.DICT_4X4_50 = 0 through cv2.aruco.DICT_ARUCO_ORIGINAL = 16),
listed in the order of the source table. -/
def ARUCO_DICTIONARIES : List (String × Nat) :=
  [("DICT_4X4_50", 0), ("DICT_4X4_100", 1), ("DICT_4X4_250", 2), ("DICT_4X4_1000", 3),
   ("DICT_5X5_50", 4), ("DICT_5X5_100", 5), ("DICT_5X5_250", 6), ("DICT_5X5_1000", 7),
   ("DICT_6X6_50", 8), ("DICT_6X6_100", 9), ("DICT_6X6_250", 10), ("DICT_6X6_1000", 11),
   ("DICT_7X7_50", 12), ("DICT_7X7_100", 13), ("DICT_7X7_250", 14), ("DICT_7X7_1000", 15),
   ("DICT_ARUCO_ORIGINAL", 16)]

/-- The supported dictionary names, in table order. -/
def arucoDictionaryNames : List String := ARUCO_DICTIONARIES.map Prod.fst

/-- Embedding of the ValueError raised by get_aruco_dictionary: the
message carries the offending name and the list of available names. -/
structure UnknownDictionaryError where
  offending : String
  available : List String
  deriving DecidableEq, Repr

/-- Embedding of get_aruco_dictionary (detector.py).  Checks membership
in the table; on failure raises a ValueError naming the offending value
and listing every valid name; on success returns the table entry. -/
def get_aruco_dictionary (name : String) : Except UnknownDictionaryError Nat :=
  if arucoDictionaryNames.contains name then
    .ok ((ARUCO_DICTIONARIES.lookup name).getD 0)
  else
    .error ⟨name, arucoDictionaryNames⟩

/-! Section: Raster loading (georef.py, load_geotiff_for_detection) -/

/-- Maximum of a pixel buffer, as used by img.max(); 0 on an empty buffer. -/
def imgMax (img : List Nat) : Nat := img.foldr max 0

/-- Embedding of the bit-depth normalization step of
load_geotiff_for_detection, acting on the stacked channels.  Pixel
samples are modelled as naturals (the service handles unsigned raster
datatypes).  If the datatype is already 8-bit unsigned the buffer
passes through; otherwise, only when the maximum sample exceeds 255,
every sample v is rescaled to v / max * 255 and the float result is
truncated (natural division); otherwise the cast leaves the samples
unchanged. -/
def normalizeStack (isUint8 : Bool) (chans : List (List Nat)) : List (List Nat) :=
  if isUint8 then chans
  else if 255 < imgMax chans.flatten then
    chans.map (List.map (fun v => v * 255 / imgMax chans.flatten))
  else chans

/-- Embedding of the band handling of load_geotiff_for_detection
(georef.py).  A raster is modelled as its list of bands, each band a
flat pixel buffer.  Band count at least 3: the first three bands are
taken; band count 1: the single band is replicated into 3 channels;
any other band count raises ValueError. -/
def load_geotiff_for_detection (isUint8 : Bool) (bands : List (List Nat)) :
    Except String (List (List Nat)) :=
  match bands with
  | b1 :: b2 :: b3 :: _ => .ok (normalizeStack isUint8 [b1, b2, b3])
  | [b] => .ok (normalizeStack isUint8 [b, b, b])
  | l => .error ("Unexpected band count: " ++ toString l.length)

/-! Section: Temp-file handling (georef.py download_geotiff / cleanup_temp_file,
main.py detect_markers)

The file system is modelled as the list of staged file paths.  os
operations that can fail are given a Boolean oracle. -/

/-- Embedding of os.path.exists on the modelled file system. -/
def osPathExists (fs : List Nat) (p : Nat) : Bool := fs.contains p

/-- Embedding of os.remove: raises when the file is missing, or when the
removal itself fails (oracle removeOk = false); otherwise deletes the
path. -/
def osRemove (removeOk : Bool) (fs : List Nat) (p : Nat) : Except Unit (List Nat) :=
  if osPathExists fs p && removeOk then .ok (fs.filter (fun q => q ≠ p))
  else .error ()

/-- The try-block body of cleanup_temp_file: remove the file when it
exists, otherwise do nothing. -/
def cleanupBody (removeOk : Bool) (fs : List Nat) (p : Nat) : Except Unit (List Nat) :=
  if osPathExists fs p then osRemove removeOk fs p else .ok fs

/-- Embedding of cleanup_temp_file (georef.py): the except-clause
swallows every error, leaving the file system unchanged in that case,
so the function is total. -/
def cleanup_temp_file (removeOk : Bool) (fs : List Nat) (p : Nat) : List Nat :=
  match cleanupBody removeOk fs p with
  | .ok fs1 => fs1
  | .error _ => fs

/-- Embedding of download_geotiff (georef.py): the temp file p is
created first (NamedTemporaryFile), then the download runs; if the
HTTP request fails (oracle downloadOk = false), the exception
propagates and the already created temp file stays on disk. -/
def download_geotiff (fs : List Nat) (p : Nat) (downloadOk : Bool) :
    Except String Nat × List Nat :=
  let fs1 := p :: fs
  if downloadOk then (.ok p, fs1) else (.error "Download failed", fs1)

/-- Embedding of the detect_markers handler of main.py, restricted to
its file-lifetime behaviour.  temp_file starts as None; when
download_geotiff raises, the finally-clause sees temp_file = None and
performs no cleanup; once the download has returned a path, every exit
path (load failure, detection failure, success) runs
cleanup_temp_file on it in the finally-clause. -/
def detect_markers_run (removeOk : Bool) (fs : List Nat) (p : Nat)
    (downloadOk loadOk detectOk : Bool) : Except String Unit × List Nat :=
  match download_geotiff fs p downloadOk with
  | (.error e, fs1) => (.error e, fs1)
  | (.ok path, fs1) =>
    if loadOk then
      if detectOk then (.ok (), cleanup_temp_file removeOk fs1 path)
      else (.error "Detection failed", cleanup_temp_file removeOk fs1 path)
    else (.error "Detection failed", cleanup_temp_file removeOk fs1 path)

/-! Section: Coordinate mapping (georef.py, pixel_to_coords)

Floating-point values are modelled as real numbers. -/

open Real in
/-- Embedding of the Python int() conversion on a float: truncation
toward zero. -/
noncomputable def pyInt (x : ℝ) : ℤ := if 0 ≤ x then ⌊x⌋ else ⌈x⌉

/-- A rasterio affine transform: x = a * col + b * row + c and
y = d * col + e * row + f. -/
structure Affine where
  a : ℝ
  b : ℝ
  c : ℝ
  d : ℝ
  e : ℝ
  f : ℝ

/-- Embedding of rasterio.transform.xy with its default center offset:
the returned coordinate is that of the center of the addressed pixel,
obtained by applying the affine at (col + 0.5, row + 0.5). -/
noncomputable def xy (t : Affine) (row col : ℤ) : ℝ × ℝ :=
  (t.a * ((col : ℝ) + 0.5) + t.b * ((row : ℝ) + 0.5) + t.c,
   t.d * ((col : ℝ) + 0.5) + t.e * ((row : ℝ) + 0.5) + t.f)

/-- Embedding of pixel_to_coords (georef.py): both pixel coordinates
pass through int() and the pair is fed to xy as (row, col); the result
is returned as (longitude, latitude). -/
noncomputable def pixel_to_coords (t : Affine) (pixel_x pixel_y : ℝ) : ℝ × ℝ :=
  xy t (pyInt pixel_y) (pyInt pixel_x)

/-- The identity transform: pixel size 1, no rotation, origin (0,0). -/
def identityTransform : Affine := ⟨1, 0, 0, 0, 1, 0⟩

/-! Section: Geometry analysis (detector.py, calculate_confidence and
calculate_rotation) -/

/-- A detected marker corner set: 4 points in pixel space, in detector
order (clockwise from top-left). -/
structure Corners where
  p0 : ℝ × ℝ
  p1 : ℝ × ℝ
  p2 : ℝ × ℝ
  p3 : ℝ × ℝ

/-- The corner points as a list, in order. -/
def Corners.toList (c : Corners) : List (ℝ × ℝ) := [c.p0, c.p1, c.p2, c.p3]

/-- Euclidean distance between two points, as computed by
np.sqrt(np.sum((p2 - p1) ** 2)). -/
noncomputable def dist2d (p q : ℝ × ℝ) : ℝ :=
  Real.sqrt ((q.1 - p.1) ^ 2 + (q.2 - p.2) ^ 2)

/-- The four consecutive side lengths of the quadrilateral, wrapping
from the last corner back to the first. -/
noncomputable def sideLengths (c : Corners) : List ℝ :=
  [dist2d c.p0 c.p1, dist2d c.p1 c.p2, dist2d c.p2 c.p3, dist2d c.p3 c.p0]

/-- np.mean of a list of floats. -/
noncomputable def listMean (l : List ℝ) : ℝ := l.sum / l.length

/-- np.var of a list of floats: the population variance, the mean of
the squared deviations from the mean. -/
noncomputable def listVar (l : List ℝ) : ℝ :=
  ((l.map (fun x => (x - listMean l) ^ 2)).sum) / l.length

/-- Embedding of calculate_confidence (detector.py): side lengths,
zero-mean guard, normalized population variance, exponential decay,
clamp. -/
noncomputable def calculate_confidence (c : Corners) : ℝ :=
  let sides := sideLengths c
  let mean_side := listMean sides
  if mean_side = 0 then 0
  else
    let variance := listVar sides / mean_side ^ 2
    min 1 (max 0 (Real.exp (-5 * variance)))

/-- Embedding of math.atan2 over the reals (C99 semantics restricted to
real inputs, signed zeros being absent from the model): the angle of
the point (x, y), in (-pi, pi], with atan2 0 0 = 0. -/
noncomputable def atan2 (y x : ℝ) : ℝ :=
  if 0 < x then Real.arctan (y / x)
  else if x < 0 then
    (if 0 ≤ y then Real.arctan (y / x) + Real.pi else Real.arctan (y / x) - Real.pi)
  else
    (if 0 < y then Real.pi / 2 else if y < 0 then -(Real.pi / 2) else 0)

/-- Embedding of math.degrees: conversion from radians to degrees. -/
noncomputable def degrees (x : ℝ) : ℝ := x * (180 / Real.pi)

/-- Embedding of calculate_rotation (detector.py): the angle of the top
edge, from corner 0 to corner 1, via atan2 in degrees. -/
noncomputable def calculate_rotation (c : Corners) : ℝ :=
  let dx := c.p1.1 - c.p0.1
  let dy := c.p1.2 - c.p0.2
  degrees (atan2 dy dx)

/-! Section: Rounding (Python round on floats, used for the Marker record) -/

/-- Round to the nearest integer, ties to the even integer, as Python
round does on floats. -/
noncomputable def roundHalfEven (x : ℝ) : ℤ :=
  if x - ⌊x⌋ < 1 / 2 then ⌊x⌋
  else if 1 / 2 < x - ⌊x⌋ then ⌊x⌋ + 1
  else if Even ⌊x⌋ then ⌊x⌋ else ⌊x⌋ + 1

/-- Embedding of round(x, n) for floats, idealized over the reals:
round half to even at the n-th decimal digit. -/
noncomputable def pyRound (n : ℕ) (x : ℝ) : ℝ :=
  ((roundHalfEven (x * 10 ^ n) : ℝ)) / 10 ^ n

/-! Section: Marker assembly and the pipeline (detector.py,
detect_aruco_markers)

The external detection capability (cv2.aruco.ArucoDetector) is out of
scope; its output, a list of (identifier, corner set) pairs, is the
input of the assembly and sorting stage modelled here. -/

/-- One output of the external detector: marker identifier plus the 4
corner points. -/
structure RawDetection where
  marker_id : ℤ
  corners : Corners

/-- The final marker record assembled by detect_aruco_markers. -/
structure Marker where
  marker_id : ℤ
  latitude : ℝ
  longitude : ℝ
  pixel_x : ℤ
  pixel_y : ℤ
  corner_pixels : List (ℝ × ℝ)
  corner_coords : List (ℝ × ℝ)
  confidence : ℝ
  rotation_deg : ℝ

/-- Embedding of the per-detection body of detect_aruco_markers: center
as the mean of the corners, center and corners mapped through
pixel_to_coords (corners stored as (lat, lng)), confidence rounded to
4 decimals, rotation rounded to 2 decimals. -/
noncomputable def assembleMarker (t : Affine) (d : RawDetection) : Marker :=
  let cs := d.corners.toList
  let center_x := (cs.map Prod.fst).sum / 4
  let center_y := (cs.map Prod.snd).sum / 4
  let center := pixel_to_coords t center_x center_y
  { marker_id := d.marker_id
    latitude := center.2
    longitude := center.1
    pixel_x := pyInt center_x
    pixel_y := pyInt center_y
    corner_pixels := cs
    corner_coords := cs.map (fun p =>
      let g := pixel_to_coords t p.1 p.2
      (g.2, g.1))
    confidence := pyRound 4 (calculate_confidence d.corners)
    rotation_deg := pyRound 2 (calculate_rotation d.corners) }

/-- The sort key comparison used by markers.sort(key = marker_id). -/
def markerLE (m1 m2 : Marker) : Bool := m1.marker_id ≤ m2.marker_id

/-- Embedding of detect_aruco_markers (detector.py) downstream of the
external detector: assemble one Marker per raw detection, in detector
order, then stable-sort ascending by marker identifier (Python
list.sort is a stable sort; List.mergeSort realizes the same, unique,
stable-sort result). -/
noncomputable def detect_aruco_markers (t : Affine) (dets : List RawDetection) :
    List Marker :=
  (dets.map (assembleMarker t)).mergeSort markerLE

/-! Section: Helper lemmas -/

lemma imgMax_cons (a : Nat) (t : List Nat) : imgMax (a :: t) = max a (imgMax t) := rfl

lemma imgMax_le {l : List Nat} {b : Nat} (h : ∀ v ∈ l, v ≤ b) : imgMax l ≤ b := by
  induction l with
  | nil => exact Nat.zero_le b
  | cons a t ih =>
    rw [imgMax_cons]
    exact max_le (h a (List.mem_cons_self a t)) (ih fun v hv => h v (List.mem_cons_of_mem a hv))

lemma le_imgMax {l : List Nat} {v : Nat} (h : v ∈ l) : v ≤ imgMax l := by
  induction l with
  | nil => cases h
  | cons a t ih =>
    rw [imgMax_cons]
    rcases List.mem_cons.mp h with h1 | h1
    · exact h1 ▸ le_max_left a (imgMax t)
    · exact (ih h1).trans (le_max_right a (imgMax t))

lemma imgMax_mem_or (l : List Nat) : imgMax l ∈ l ∨ imgMax l = 0 := by
  induction l with
  | nil => exact Or.inr rfl
  | cons a t ih =>
    rw [imgMax_cons]
    rcases le_total (imgMax t) a with h | h
    · rw [max_eq_left h]
      exact Or.inl (List.mem_cons_self a t)
    · rcases ih with h1 | h1
      · rw [max_eq_right h]
        exact Or.inl (List.mem_cons_of_mem a h1)
      · rw [h1, Nat.max_zero]
        exact Or.inl (List.mem_cons_self a t)

lemma imgMax_map_rescale {l : List Nat} (h : 255 < imgMax l) :
    imgMax (l.map (fun v => v * 255 / imgMax l)) = 255 := by
  have hM : 0 < imgMax l := lt_trans (by norm_num) h
  have hmem : imgMax l ∈ l := (imgMax_mem_or l).resolve_right (by omega)
  have hcancel : imgMax l * 255 / imgMax l = 255 := Nat.mul_div_cancel_left 255 hM
  apply le_antisymm
  · apply imgMax_le
    intro v hv
    obtain ⟨w, hw, rfl⟩ := List.mem_map.mp hv
    calc w * 255 / imgMax l ≤ imgMax l * 255 / imgMax l :=
          Nat.div_le_div_right (Nat.mul_le_mul (le_imgMax hw) (le_refl 255))
      _ = 255 := hcancel
  · have hin : imgMax l * 255 / imgMax l ∈ l.map (fun v => v * 255 / imgMax l) :=
      List.mem_map.mpr ⟨imgMax l, hmem, rfl⟩
    rw [hcancel] at hin
    exact le_imgMax hin

lemma normalizeStack_length (u : Bool) (chans : List (List Nat)) :
    (normalizeStack u chans).length = chans.length := by
  unfold normalizeStack
  split
  · rfl
  · split
    · exact List.length_map chans _
    · rfl

lemma cleanup_eq_filter {fs : List Nat} {p : Nat} (h : osPathExists fs p = true) :
    cleanup_temp_file true fs p = fs.filter (fun q => q ≠ p) := by
  unfold cleanup_temp_file cleanupBody osRemove
  rw [h]
  simp

lemma cleanup_of_not_exists {fs : List Nat} {p : Nat} (removeOk : Bool)
    (h : osPathExists fs p = false) : cleanup_temp_file removeOk fs p = fs := by
  unfold cleanup_temp_file cleanupBody
  rw [h]
  simp

lemma cleanup_of_remove_fails (fs : List Nat) (p : Nat) :
    cleanup_temp_file false fs p = fs := by
  unfold cleanup_temp_file cleanupBody osRemove
  cases h : osPathExists fs p <;> simp [h]

lemma not_exists_filter (fs : List Nat) (p : Nat) :
    osPathExists (fs.filter (fun q => q ≠ p)) p = false := by
  unfold osPathExists
  simp

lemma not_mem_cleanup {fs : List Nat} {p : Nat} (h : osPathExists fs p = true) :
    p ∉ cleanup_temp_file true fs p := by
  rw [cleanup_eq_filter h]
  simp

/-! Section: Claim C6: bit-depth normalization -/

/-- Counterexample to C6: for a raster that is not 8-bit unsigned whose
maximum observed pixel value is 100, the loader does not rescale at
all, so the maximum does not map to 255 as the claim requires. -/
theorem C6_counterexample :
    normalizeStack false [[100]] = [[100]] ∧
    imgMax (normalizeStack false [[100]]).flatten ≠ 255 := by
  constructor
  · rfl
  · decide

/-- C6, amended: an 8-bit unsigned buffer passes through unchanged; a
buffer of another datatype is rescaled so that its maximum observed
value maps to 255 only when that maximum exceeds 255; when the maximum
is at most 255 the buffer is cast without rescaling, so it also passes
through unchanged. -/
theorem C6_bit_depth_normalization (chans : List (List Nat)) :
    normalizeStack true chans = chans ∧
    (imgMax chans.flatten ≤ 255 → normalizeStack false chans = chans) ∧
    (255 < imgMax chans.flatten →
      normalizeStack false chans
        = chans.map (List.map (fun v => v * 255 / imgMax chans.flatten)) ∧
      imgMax (normalizeStack false chans).flatten = 255) := by
  refine ⟨rfl, ?_, ?_⟩
  · intro h
    unfold normalizeStack
    rw [if_neg (by simp), if_neg (by omega)]
  · intro h
    have hmap : normalizeStack false chans
        = chans.map (List.map (fun v => v * 255 / imgMax chans.flatten)) := by
      unfold normalizeStack
      rw [if_neg (by simp), if_pos h]
    refine ⟨hmap, ?_⟩
    rw [hmap, ← List.map_flatten]
    exact imgMax_map_rescale h

/-- Witness for C6 at a concrete buffer: maximum 1000 exceeds 255, the
buffer is rescaled and its new maximum is exactly 255. -/
theorem C6_witness :
    normalizeStack false [[1000, 500]] = [[255, 127]] ∧
    imgMax (normalizeStack false [[1000, 500]]).flatten = 255 := by
  have h := (C6_bit_depth_normalization [[1000, 500]]).2.2 (by decide)
  exact ⟨h.1.trans (by decide), h.2⟩

/-! Section: Claim C7: band count handling -/

/-- C7: loading succeeds exactly for band count 1 or at least 3; every
successful load yields exactly 3 channels (first three bands, or the
single band replicated); band count 2 fails with the unsupported band
count error. -/
theorem C7_band_count (u : Bool) (bands : List (List Nat)) :
    ((∃ out, load_geotiff_for_detection u bands = .ok out)
      ↔ bands.length = 1 ∨ 3 ≤ bands.length) ∧
    (∀ out, load_geotiff_for_detection u bands = .ok out → out.length = 3) ∧
    (bands.length = 2 →
      load_geotiff_for_detection u bands = .error "Unexpected band count: 2") := by
  match bands with
  | [] =>
    refine ⟨by simp [load_geotiff_for_detection], ?_, by intro h; simp at h⟩
    intro out hout
    simp [load_geotiff_for_detection] at hout
  | [b] =>
    refine ⟨by simp [load_geotiff_for_detection], ?_, by intro h; simp at h⟩
    intro out hout
    simp only [load_geotiff_for_detection, Except.ok.injEq] at hout
    rw [← hout, normalizeStack_length]
    rfl
  | [b1, b2] =>
    refine ⟨by simp [load_geotiff_for_detection], ?_, ?_⟩
    · intro out hout
      simp [load_geotiff_for_detection] at hout
    · intro _
      have h0 : ([b1, b2] : List (List Nat)).length = 2 := rfl
      show Except.error ("Unexpected band count: " ++ toString ([b1, b2] : List (List Nat)).length) = _
      rw [h0]
      exact congrArg Except.error (by decide)
  | b1 :: b2 :: b3 :: rest =>
    refine ⟨?_, ?_, by intro h; simp at h⟩
    · refine iff_of_true ⟨normalizeStack u [b1, b2, b3], rfl⟩ (Or.inr ?_)
      simp
    · intro out hout
      simp only [load_geotiff_for_detection, Except.ok.injEq] at hout
      rw [← hout, normalizeStack_length]
      rfl

/-- Witness for C7 at concrete rasters: a 2-band raster fails with the
unsupported band count error, and a 4-band raster loads with exactly 3
channels. -/
theorem C7_witness :
    load_geotiff_for_detection false [[0], [0]] = .error "Unexpected band count: 2" ∧
    (normalizeStack false [[7], [8], [9]]).length = 3 :=
  ⟨(C7_band_count false [[0], [0]]).2.2 rfl,
   (C7_band_count false [[7], [8], [9], [10]]).2.1 (normalizeStack false [[7], [8], [9]]) rfl⟩

/-! Section: Claim C8: dictionary resolution -/

/-- C8: every name outside the supported set fails with an error naming
the offending value and listing the 17 valid names; every supported
name resolves successfully. -/
theorem C8_dictionary_resolution :
    (∀ name : String, name ∉ arucoDictionaryNames →
      get_aruco_dictionary name = .error ⟨name, arucoDictionaryNames⟩) ∧
    (∀ name ∈ arucoDictionaryNames, (get_aruco_dictionary name).isOk = true) ∧
    arucoDictionaryNames.length = 17 := by
  refine ⟨?_, ?_, rfl⟩
  · intro name h
    unfold get_aruco_dictionary
    rw [if_neg (by simpa using h)]
  · intro name h
    unfold get_aruco_dictionary
    rw [if_pos (by simpa using h)]
    rfl

/-- Witness for C8 at concrete names: an unknown name yields the
enumerating error, and a known name resolves. -/
theorem C8_witness :
    get_aruco_dictionary "DICT_9X9_50" = .error ⟨"DICT_9X9_50", arucoDictionaryNames⟩ ∧
    (get_aruco_dictionary "DICT_7X7_1000").isOk = true :=
  ⟨C8_dictionary_resolution.1 "DICT_9X9_50" (by decide),
   C8_dictionary_resolution.2.1 "DICT_7X7_1000" (by decide)⟩

/-! Section: Claim C9: ephemeral file cleanup -/

/-- Counterexample to C9: when the download itself fails, the handler
run ends in error and the staged temp file (path 0, created before the
download) is still present afterwards: cleanup is skipped because the
temp_file variable was never assigned. -/
theorem C9_counterexample :
    detect_markers_run true [] 0 false true true = (.error "Download failed", [0]) := rfl

/-- C9, amended: once the download has returned the staged path, every
exit path of the handler (success, load failure, detection failure)
removes the staged file; but when the download itself fails after
staging, the staged file survives the run. -/
theorem C9_cleanup_on_exit_paths (fs : List Nat) (p : Nat) (loadOk detectOk : Bool) :
    p ∉ (detect_markers_run true fs p true loadOk detectOk).2 ∧
    (detect_markers_run true fs p false loadOk detectOk).2 = p :: fs := by
  have hex : osPathExists (p :: fs) p = true := by simp [osPathExists]
  constructor
  · unfold detect_markers_run download_geotiff
    cases loadOk <;> cases detectOk <;> simpa using not_mem_cleanup hex
  · rfl

/-! Section: Claim C10: cleanup_temp_file is total and idempotent -/

/-- C10: cleanup_temp_file always returns (the except-clause swallows
every failure, so the result is either the file system with the path
removed or the unchanged file system); if the file exists and removal
succeeds it is removed; if it does not exist the call is a no-op; and
the call is idempotent for every oracle value. -/
theorem C10_cleanup_safety (removeOk : Bool) (fs : List Nat) (p : Nat) :
    (cleanup_temp_file removeOk fs p = fs.filter (fun q => q ≠ p) ∨
      cleanup_temp_file removeOk fs p = fs) ∧
    (osPathExists fs p = true → removeOk = true →
      cleanup_temp_file removeOk fs p = fs.filter (fun q => q ≠ p)) ∧
    (osPathExists fs p = false → cleanup_temp_file removeOk fs p = fs) ∧
    cleanup_temp_file removeOk (cleanup_temp_file removeOk fs p) p
      = cleanup_temp_file removeOk fs p := by
  cases removeOk with
  | false =>
    rw [cleanup_of_remove_fails, cleanup_of_remove_fails]
    refine ⟨Or.inr rfl, ?_, fun _ => rfl, rfl⟩
    intro h1 h2
    exact Bool.noConfusion h2
  | true =>
    cases hex : osPathExists fs p with
    | false =>
      rw [cleanup_of_not_exists true hex, cleanup_of_not_exists true hex]
      refine ⟨Or.inr rfl, ?_, fun _ => rfl, rfl⟩
      intro h1 h2
      exact Bool.noConfusion h1
    | true =>
      rw [cleanup_eq_filter hex,
        cleanup_of_not_exists true (not_exists_filter fs p)]
      refine ⟨Or.inl rfl, fun _ _ => rfl, ?_, rfl⟩
      intro h1
      exact Bool.noConfusion h1

/-- Witness for C10 at a concrete file system: the existing path 3 is
removed, and a second call on the result is a safe no-op. -/
theorem C10_witness :
    cleanup_temp_file true [3, 5] 3 = [5] ∧
    cleanup_temp_file true (cleanup_temp_file true [3, 5] 3) 3
      = cleanup_temp_file true [3, 5] 3 :=
  ⟨((C10_cleanup_safety true [3, 5] 3).2.1 (by decide) rfl).trans (by decide),
   (C10_cleanup_safety true [3, 5] 3).2.2.2⟩

/-! Section: Claims C2 and C3: coordinate mapping -/

lemma pyInt_intCast (n : ℤ) : pyInt (n : ℝ) = n := by
  unfold pyInt
  split
  · exact Int.floor_intCast n
  · exact Int.ceil_intCast n

lemma pyInt_idem (x : ℝ) : pyInt ((pyInt x : ℤ) : ℝ) = pyInt x := pyInt_intCast _

lemma pyInt_of_nonneg {x : ℝ} (h : 0 ≤ x) : pyInt x = ⌊x⌋ := if_pos h

lemma pyInt_ten_point_six : pyInt (10.6 : ℝ) = 10 := by
  rw [pyInt_of_nonneg (by norm_num)]
  rw [Int.floor_eq_iff]
  norm_num

lemma pyInt_hundred : pyInt (100 : ℝ) = 100 := by
  rw [show ((100 : ℝ)) = ((100 : ℤ) : ℝ) by norm_num, pyInt_intCast]

/-- Counterexample to C2: under the identity transform (pixel size 1,
no rotation, origin (0,0)) the pixel (100,100) does not map to the
geographic point (100,100): the mapping addresses the pixel center, so
it maps to (100.5, 100.5). -/
theorem C2_counterexample :
    pixel_to_coords identityTransform 100 100 ≠ (100, 100) := by
  unfold pixel_to_coords xy identityTransform
  rw [pyInt_hundred]
  intro h
  have h1 := congrArg Prod.fst h
  norm_num at h1

/-- C2, amended: pixel_to_coords applies the 6-coefficient affine
mapping at the center of the truncated integer pixel, that is at
column col + 0.5 and row row + 0.5 (rasterio xy with its default
center offset); in particular the identity transform maps the pixel
(100,100) to the geographic point (100.5, 100.5). -/
theorem C2_affine_center_mapping (px py : ℝ) :
    (∀ t : Affine, pixel_to_coords t px py
      = (t.a * ((pyInt px : ℝ) + 0.5) + t.b * ((pyInt py : ℝ) + 0.5) + t.c,
         t.d * ((pyInt px : ℝ) + 0.5) + t.e * ((pyInt py : ℝ) + 0.5) + t.f)) ∧
    pixel_to_coords identityTransform px py
      = ((pyInt px : ℝ) + 0.5, (pyInt py : ℝ) + 0.5) ∧
    pixel_to_coords identityTransform 100 100 = (100.5, 100.5) := by
  refine ⟨fun t => rfl, ?_, ?_⟩
  · unfold pixel_to_coords xy identityTransform
    refine Prod.ext ?_ ?_ <;> ring
  · unfold pixel_to_coords xy identityTransform
    rw [pyInt_hundred]
    refine Prod.ext ?_ ?_ <;> norm_num

/-- Counterexample to C3: pixel_to_coords does not round 10.6 to the
nearest integer pixel index 11; applying the transform at pixel
(11, 11) gives a different result. -/
theorem C3_counterexample :
    pixel_to_coords identityTransform 10.6 10.6 ≠ xy identityTransform 11 11 := by
  unfold pixel_to_coords
  rw [pyInt_ten_point_six]
  unfold xy identityTransform
  intro h
  have h1 := congrArg Prod.fst h
  norm_num at h1

/-- C3, amended: both pixel coordinates pass through the Python int()
conversion, which truncates toward zero rather than rounding to
nearest; the sub-pixel part is discarded, so evaluating at (10.6,
10.6) is the same as evaluating at the integer pixel (10, 10). -/
theorem C3_truncation (t : Affine) (px py : ℝ) :
    pixel_to_coords t px py
      = pixel_to_coords t ((pyInt px : ℤ) : ℝ) ((pyInt py : ℤ) : ℝ) ∧
    pixel_to_coords t 10.6 10.6 = pixel_to_coords t 10 10 := by
  constructor
  · unfold pixel_to_coords
    rw [pyInt_idem, pyInt_idem]
  · unfold pixel_to_coords
    rw [pyInt_ten_point_six,
      show ((10 : ℝ)) = ((10 : ℤ) : ℝ) by norm_num, pyInt_intCast]

/-! Section: Claim C4: confidence score -/

/-- Population variance of a list of reals, written as the spec words
it: the mean of the squared deviations from the mean. -/
noncomputable def populationVariance (l : List ℝ) : ℝ :=
  ((l.map (fun x => (x - listMean l) ^ 2)).sum) / l.length

/-- Clamp to the interval from 0 to 1, as the spec words it. -/
noncomputable def clamp01 (x : ℝ) : ℝ := max 0 (min 1 x)

/-- The confidence score as the spec describes it, for comparison with
the embedded source definition: four wrapping side lengths, zero
confidence on zero mean side, otherwise exponential decay of the
normalized population variance, clamped to the unit interval. -/
noncomputable def confidence_spec (c : Corners) : ℝ :=
  let sides := sideLengths c
  if listMean sides = 0 then 0
  else clamp01 (Real.exp (-5 * (populationVariance sides / listMean sides ^ 2)))

lemma min_one_max_zero (x : ℝ) : min 1 (max 0 x) = max 0 (min 1 x) := by
  simp only [min_def, max_def]
  split_ifs <;> linarith

lemma sqrt_hundred : Real.sqrt 100 = 10 := by
  rw [show (100 : ℝ) = 10 ^ 2 by norm_num, Real.sqrt_sq (by norm_num : (0 : ℝ) ≤ 10)]

/-- C4: the source confidence agrees with the spec formula everywhere;
four coincident corners give confidence 0; the axis-aligned square
with side 10 gives confidence exactly 1. -/
theorem C4_confidence_formula :
    (∀ c : Corners, calculate_confidence c = confidence_spec c) ∧
    (∀ p : ℝ × ℝ, calculate_confidence ⟨p, p, p, p⟩ = 0) ∧
    calculate_confidence ⟨(0, 0), (10, 0), (10, 10), (0, 10)⟩ = 1 := by
  refine ⟨?_, ?_, ?_⟩
  · intro c
    unfold calculate_confidence confidence_spec clamp01 populationVariance listVar
    dsimp only
    split
    · rfl
    · exact min_one_max_zero _
  · intro p
    unfold calculate_confidence sideLengths dist2d listMean
    norm_num
  · norm_num [calculate_confidence, sideLengths, dist2d, listVar, listMean,
      sqrt_hundred, Real.exp_zero]

/-! Section: Claim C5: confidence and rotation ranges in the Marker record -/

lemma arctan_pos {x : ℝ} (h : 0 < x) : 0 < Real.arctan x := by
  have h1 := Real.arctan_strictMono h
  rwa [Real.arctan_zero] at h1

lemma arctan_nonpos {x : ℝ} (h : x ≤ 0) : Real.arctan x ≤ 0 := by
  have h1 := Real.arctan_strictMono.monotone h
  rwa [Real.arctan_zero] at h1

lemma arctan_lt_self {x : ℝ} (h : 0 < x) : Real.arctan x < x := by
  have h1 : 0 < Real.arctan x := arctan_pos h
  have h2 := Real.arctan_lt_pi_div_two x
  have h3 := Real.lt_tan h1 h2
  rwa [Real.tan_arctan] at h3

lemma atan2_range (y x : ℝ) : -Real.pi < atan2 y x ∧ atan2 y x ≤ Real.pi := by
  have hpi := Real.pi_pos
  unfold atan2
  split_ifs with h1 h2 h3 h4 h5
  · have hl := Real.neg_pi_div_two_lt_arctan (y / x)
    have hr := Real.arctan_lt_pi_div_two (y / x)
    constructor <;> linarith
  · have hl := Real.neg_pi_div_two_lt_arctan (y / x)
    have hr : Real.arctan (y / x) ≤ 0 :=
      arctan_nonpos (div_nonpos_iff.mpr (Or.inl ⟨h3, h2.le⟩))
    constructor <;> linarith
  · have hy : y < 0 := lt_of_not_le h3
    have hr := Real.arctan_lt_pi_div_two (y / x)
    have hl : 0 < Real.arctan (y / x) :=
      arctan_pos (div_pos_iff.mpr (Or.inr ⟨hy, h2⟩))
    constructor <;> linarith
  · constructor <;> linarith
  · constructor <;> linarith
  · constructor <;> linarith

lemma calculate_rotation_range (c : Corners) :
    -180 < calculate_rotation c ∧ calculate_rotation c ≤ 180 := by
  have hpi := Real.pi_pos
  have hq : (0 : ℝ) < 180 / Real.pi := by positivity
  obtain ⟨hl, hr⟩ := atan2_range (c.p1.2 - c.p0.2) (c.p1.1 - c.p0.1)
  have h180 : Real.pi * (180 / Real.pi) = 180 := by field_simp
  unfold calculate_rotation degrees
  constructor
  · have := mul_lt_mul_of_pos_right hl hq
    rw [show -Real.pi * (180 / Real.pi) = -(Real.pi * (180 / Real.pi)) by ring, h180] at this
    exact this
  · have := mul_le_mul_of_nonneg_right hr hq.le
    rwa [h180] at this

lemma calculate_confidence_range (c : Corners) :
    0 ≤ calculate_confidence c ∧ calculate_confidence c ≤ 1 := by
  unfold calculate_confidence
  dsimp only
  split_ifs
  · exact ⟨le_refl 0, zero_le_one⟩
  · exact ⟨le_min zero_le_one (le_max_left 0 _), min_le_left 1 _⟩

lemma roundHalfEven_ge {n : ℤ} {x : ℝ} (h : (n : ℝ) ≤ x) : n ≤ roundHalfEven x := by
  have hf : n ≤ ⌊x⌋ := Int.le_floor.mpr h
  unfold roundHalfEven
  split_ifs <;> omega

lemma roundHalfEven_le {n : ℤ} {x : ℝ} (h : x ≤ n) : roundHalfEven x ≤ n := by
  have hfl : ⌊x⌋ ≤ n := by
    have h1 := Int.floor_le_floor h
    rwa [Int.floor_intCast] at h1
  unfold roundHalfEven
  split_ifs with h1 h2 h3
  · exact hfl
  · rcases lt_or_eq_of_le hfl with hlt | heq
    · omega
    · exfalso
      rw [heq] at h2
      linarith
  · exact hfl
  · rcases lt_or_eq_of_le hfl with hlt | heq
    · omega
    · exfalso
      rw [heq] at h1
      push_neg at h1
      linarith

lemma pyRound_nonneg {n : ℕ} {x : ℝ} (h : 0 ≤ x) : 0 ≤ pyRound n x := by
  unfold pyRound
  apply div_nonneg _ (by positivity)
  have h1 : ((0 : ℤ) : ℝ) ≤ x * 10 ^ n := by
    push_cast
    exact mul_nonneg h (by positivity)
  exact_mod_cast roundHalfEven_ge h1

lemma pyRound_le_one {n : ℕ} {x : ℝ} (h : x ≤ 1) : pyRound n x ≤ 1 := by
  unfold pyRound
  rw [div_le_one (by positivity)]
  have h1 : x * 10 ^ n ≤ (((10 : ℤ) ^ n : ℤ) : ℝ) := by
    push_cast
    calc x * 10 ^ n ≤ 1 * 10 ^ n := mul_le_mul_of_nonneg_right h (by positivity)
      _ = 10 ^ n := one_mul _
  have h2 := roundHalfEven_le h1
  calc ((roundHalfEven (x * 10 ^ n) : ℤ) : ℝ) ≤ (((10 : ℤ) ^ n : ℤ) : ℝ) := by exact_mod_cast h2
    _ = 10 ^ n := by push_cast; ring

lemma pyRound2_rotation_bounds {x : ℝ} (h1 : -180 < x) (h2 : x ≤ 180) :
    -180 ≤ pyRound 2 x ∧ pyRound 2 x ≤ 180 := by
  have hlo : ((-18000 : ℤ) : ℝ) ≤ x * 10 ^ 2 := by push_cast; nlinarith
  have hhi : x * 10 ^ 2 ≤ ((18000 : ℤ) : ℝ) := by push_cast; nlinarith
  have hge := roundHalfEven_ge hlo
  have hle := roundHalfEven_le hhi
  have hge2 : ((-18000 : ℤ) : ℝ) ≤ (roundHalfEven (x * 10 ^ 2) : ℝ) := by exact_mod_cast hge
  have hle2 : ((roundHalfEven (x * 10 ^ 2) : ℤ) : ℝ) ≤ ((18000 : ℤ) : ℝ) := by exact_mod_cast hle
  unfold pyRound
  push_cast at hge2 hle2
  constructor
  · rw [le_div_iff₀ (by positivity : (0 : ℝ) < 10 ^ 2)]
    linarith
  · rw [div_le_iff₀ (by positivity : (0 : ℝ) < 10 ^ 2)]
    linarith

/-- C5, amended: for every raw detection, the confidence stored in the
assembled Marker (rounded to 4 decimals) lies in the closed unit
interval; the rotation before rounding lies in the half-open interval
from -180 exclusive to 180 inclusive; and the rotation stored in the
Marker (rounded to 2 decimals) lies in the closed interval from -180
to 180 — the exact endpoint -180 can be produced by the rounding. -/
theorem C5_marker_ranges (t : Affine) (d : RawDetection) :
    (0 ≤ (assembleMarker t d).confidence ∧ (assembleMarker t d).confidence ≤ 1) ∧
    (-180 < calculate_rotation d.corners ∧ calculate_rotation d.corners ≤ 180) ∧
    (-180 ≤ (assembleMarker t d).rotation_deg ∧ (assembleMarker t d).rotation_deg ≤ 180) := by
  obtain ⟨hc0, hc1⟩ := calculate_confidence_range d.corners
  obtain ⟨hr0, hr1⟩ := calculate_rotation_range d.corners
  have hconf : (assembleMarker t d).confidence = pyRound 4 (calculate_confidence d.corners) := rfl
  have hrot : (assembleMarker t d).rotation_deg = pyRound 2 (calculate_rotation d.corners) := rfl
  rw [hconf, hrot]
  exact ⟨⟨pyRound_nonneg hc0, pyRound_le_one hc1⟩, ⟨hr0, hr1⟩,
    pyRound2_rotation_bounds hr0 hr1⟩

/-- A marker whose top edge points just below the negative x-axis:
corner 0 at the origin, corner 1 at (-1, -1/100000). -/
noncomputable def cexCorners : Corners := ⟨(0, 0), (-1, -(1 / 100000)), (-1, -1), (0, -1)⟩

/-- Counterexample to C5: for this valid 4-corner detection the
unrounded rotation is strictly greater than -180, but rounding to 2
decimals lands exactly on -180, so the Marker record does return
exactly -180. -/
theorem C5_counterexample :
    (assembleMarker identityTransform ⟨0, cexCorners⟩).rotation_deg = -180 ∧
    -180 < calculate_rotation cexCorners := by
  have hpi := Real.pi_pos
  have h3pi := Real.pi_gt_three
  have hA1 : 0 < Real.arctan (1 / 100000) := arctan_pos (by norm_num)
  have hA2 : Real.arctan (1 / 100000) < 1 / 100000 := arctan_lt_self (by norm_num)
  have hval : calculate_rotation cexCorners
      = Real.arctan (1 / 100000) * (180 / Real.pi) - 180 := by
    unfold calculate_rotation cexCorners atan2 degrees
    dsimp only
    rw [if_neg (by norm_num), if_pos (by norm_num), if_neg (by norm_num)]
    rw [show ((-(1 / 100000) - 0) / (-1 - 0) : ℝ) = 1 / 100000 by norm_num]
    rw [sub_mul, show Real.pi * (180 / Real.pi) = 180 by field_simp]
  have hEpos : 0 < Real.arctan (1 / 100000) * (180 / Real.pi) :=
    mul_pos hA1 (by positivity)
  have hEsmall : Real.arctan (1 / 100000) * (180 / Real.pi) * 100 < 1 / 2 := by
    rw [show Real.arctan (1 / 100000) * (180 / Real.pi) * 100
        = 18000 * Real.arctan (1 / 100000) / Real.pi by ring]
    rw [div_lt_iff₀ hpi]
    nlinarith
  have hfloor : ⌊(Real.arctan (1 / 100000) * (180 / Real.pi) - 180) * 100⌋ = -18000 := by
    rw [Int.floor_eq_iff]
    constructor
    · push_cast
      nlinarith
    · push_cast
      nlinarith
  have hrhe : roundHalfEven ((Real.arctan (1 / 100000) * (180 / Real.pi) - 180) * 100)
      = -18000 := by
    unfold roundHalfEven
    rw [hfloor]
    rw [if_pos]
    push_cast
    nlinarith
  constructor
  · have hfield : (assembleMarker identityTransform ⟨0, cexCorners⟩).rotation_deg
        = pyRound 2 (calculate_rotation cexCorners) := rfl
    rw [hfield, hval]
    unfold pyRound
    rw [show ((Real.arctan (1 / 100000) * (180 / Real.pi) - 180) * 10 ^ (2 : ℕ))
        = (Real.arctan (1 / 100000) * (180 / Real.pi) - 180) * 100 by norm_num]
    rw [hrhe]
    norm_num
  · rw [hval]
    nlinarith

/-! Section: Claim C1: deterministic ordering of the result list -/

lemma markerLE_trans : ∀ (a b c : Marker), markerLE a b → markerLE b c → markerLE a c := by
  intro a b c h1 h2
  simp only [markerLE, decide_eq_true_eq] at h1 h2 ⊢
  omega

lemma markerLE_total : ∀ (a b : Marker), markerLE a b || markerLE b a := by
  intro a b
  simp only [markerLE, Bool.or_eq_true, decide_eq_true_eq]
  omega

lemma mergeSort_markerLE_filter (k : ℤ) (l : List Marker) :
    (l.mergeSort markerLE).filter (fun m => m.marker_id == k)
      = l.filter (fun m => m.marker_id == k) := by
  induction l with
  | nil => simp
  | cons a l ih =>
    obtain ⟨l1, l2, h1, h2, h3⟩ := List.mergeSort_cons markerLE_trans markerLE_total a l
    rw [h1, List.filter_append, List.filter_cons]
    rw [h2, List.filter_append] at ih
    by_cases hk : a.marker_id = k
    · have hl1 : l1.filter (fun m => m.marker_id == k) = [] := by
        rw [List.filter_eq_nil_iff]
        intro b hb
        have hb2 := h3 b hb
        simp only [markerLE, Bool.not_eq_true', decide_eq_false_iff_not, not_le] at hb2
        simp only [beq_iff_eq]
        omega
      rw [hl1] at ih ⊢
      rw [List.nil_append] at ih
      simp only [hk, beq_self_eq_true, if_true, List.nil_append, List.filter_cons,
        beq_self_eq_true]
      rw [ih]
    · have hka : (a.marker_id == k) = false := by
        simp only [beq_eq_false_iff_ne, ne_eq]
        exact hk
      rw [hka]
      simp only [Bool.false_eq_true, if_false, List.filter_cons, hka, Bool.false_eq_true,
        if_false]
      exact ih

/-- C1: for every detector output list, in any order, the pipeline
result is sorted ascending by marker identifier, and the markers with
any fixed identifier appear in the same relative order as the
corresponding detections did (stability). -/
theorem C1_sorted_stable (t : Affine) (dets : List RawDetection) :
    List.Pairwise (fun m1 m2 : Marker => m1.marker_id ≤ m2.marker_id)
      (detect_aruco_markers t dets) ∧
    ∀ k : ℤ, (detect_aruco_markers t dets).filter (fun m => m.marker_id == k)
      = (dets.map (assembleMarker t)).filter (fun m => m.marker_id == k) := by
  constructor
  · have h := List.sorted_mergeSort markerLE_trans markerLE_total
      (dets.map (assembleMarker t))
    unfold detect_aruco_markers
    exact h.imp (fun hab => by simpa [markerLE] using hab)
  · intro k
    unfold detect_aruco_markers
    exact mergeSort_markerLE_filter k (dets.map (assembleMarker t))

end Aruco
